import Mathlib

/-!
Verification development for the media-downloader bot in src/main.py.

The Python source is shallowly embedded: pure string/URL manipulation is
translated to Lean functions over lists of characters, the mutable URL
cache and the temporary-workspace filesystem are explicit state values,
and the external collaborators (pytubefix, yt-dlp, instaloader, ffmpeg,
the Telegram API) are abstracted as oracle parameters describing their
observable outcomes.  Python exceptions are modelled with Except.
-/

/-! ## String helpers: the Python substring test, truncation, lowering -/

/-- Models the Python substring operator (needle in hay) on character lists. -/
def listInfixOf (needle : List Char) : List Char → Bool
  | [] => needle.isEmpty
  | c :: rest => needle.isPrefixOf (c :: rest) || listInfixOf needle rest

/-- Models the Python expression (needle in hay) for strings. -/
def strContains (hay needle : String) : Bool :=
  listInfixOf needle.toList hay.toList

/-- Models the Python slice s[:100] used to truncate raw error details. -/
def truncate100 (s : String) : String :=
  (s.toList.take 100).asString

/-- Models str.lower on a character list (ASCII, as the hosts involved are). -/
def lowerChars (cs : List Char) : List Char := cs.map Char.toLower

/-! ## PlatformClassifier: urlparse netloc extraction plus the domain table

Models urllib.parse.urlparse as used in src/main.py lines 86-100 and
123-137: only the netloc is consulted.  urlparse splits an initial
scheme, reads the netloc after a leading double slash up to the first
slash, question mark or hash, and raises ValueError for a netloc with
unbalanced square brackets (the Invalid IPv6 URL case).  That error is
the one exception the try/except blocks of is_supported_url and
get_platform_name can see. -/

/-- Valid Python URL scheme: a letter followed by letters, digits, plus,
minus or dot. -/
def validSchemeChars : List Char → Bool
  | [] => false
  | c :: rest => c.isAlpha && rest.all (fun d => d.isAlphanum || d == '+' || d == '-' || d == '.')

/-- Models the scheme-splitting step of urlparse: drop a valid scheme and
its colon, otherwise leave the input unchanged. -/
def dropScheme (cs : List Char) : List Char :=
  match cs.findIdx? (fun c => c == ':') with
  | some i =>
    if i == 0 then cs
    else if validSchemeChars (cs.take i) then cs.drop (i + 1) else cs
  | none => cs

/-- Models urlparse(url).netloc, including the ValueError raised on a
netloc with unbalanced square brackets. -/
def urlparseNetloc (url : String) : Except String (List Char) :=
  let rest := dropScheme url.toList
  match rest with
  | '/' :: '/' :: tail =>
    let netloc := tail.takeWhile (fun c => c != '/' && c != '?' && c != '#')
    if (netloc.contains '[' && !netloc.contains ']') ||
       (netloc.contains ']' && !netloc.contains '[') then
      Except.error "Invalid IPv6 URL"
    else Except.ok netloc
  | _ => Except.ok []

/-- The static substring-to-platform table, src/main.py lines 54-61, in
source (insertion) order. -/
def supported_platforms : List (String × String) :=
  [("youtube.com", "YouTube"),
   ("youtu.be", "YouTube"),
   ("twitter.com", "Twitter/X"),
   ("x.com", "Twitter/X"),
   ("instagram.com", "Instagram"),
   ("soundcloud.com", "SoundCloud")]

/-- Lowercase the netloc and strip one leading www. segment,
src/main.py lines 90-94 and 127-130. -/
def normalizeDomain (netloc : List Char) : List Char :=
  let d := lowerChars netloc
  if ("www.".toList).isPrefixOf d then d.drop 4 else d

/-- Models is_supported_url, src/main.py lines 86-100: parse the netloc,
normalize it, and test each platform key as a substring; the except arm
returns False. -/
def is_supported_url (url : String) : Bool :=
  match urlparseNetloc url with
  | Except.error _ => false
  | Except.ok netloc =>
    let domain := normalizeDomain netloc
    supported_platforms.any (fun p => listInfixOf p.1.toList domain)

/-- Models get_platform_name, src/main.py lines 123-137: first matching
platform in table order wins; malformed URL or no match gives Unknown. -/
def get_platform_name (url : String) : String :=
  match urlparseNetloc url with
  | Except.error _ => "Unknown"
  | Except.ok netloc =>
    let domain := normalizeDomain netloc
    match supported_platforms.find? (fun p => listInfixOf p.1.toList domain) with
    | some p => p.2
    | none => "Unknown"

/-! ## HandleCache: store_url / get_url, src/main.py lines 102-121

The token is produced by an md5 digest of url, user id and clock
(external input here); the cache itself is a Python dict in insertion
order, modelled as an association list.  Assigning to an existing key
updates in place; a fresh key appends.  After insertion, if the size
exceeds 100, every key except the last 50 is deleted. -/

/-- Models the Python dict assignment cache[k] = v. -/
def dictInsert [DecidableEq κ] (cache : List (κ × υ)) (k : κ) (v : υ) : List (κ × υ) :=
  if cache.any (fun p => p.1 == k) then
    cache.map (fun p => if p.1 == k then (p.1, v) else p)
  else cache ++ [(k, v)]

/-- Models store_url, src/main.py lines 102-117: insert, then if the size
exceeds 100 delete all keys except the last 50 (list(keys)[:-50] are
removed). -/
def store_url [DecidableEq κ] (cache : List (κ × υ)) (k : κ) (v : υ) : List (κ × υ) :=
  let c := dictInsert cache k v
  if 100 < c.length then c.drop (c.length - 50) else c

/-- Models get_url, src/main.py lines 119-121: dict .get, absent is none. -/
def get_url [DecidableEq κ] (cache : List (κ × υ)) (k : κ) : Option υ :=
  (cache.find? (fun p => p.1 == k)).map Prod.snd

/-- Iterated store_url over a list of token-url pairs. -/
def putMany [DecidableEq κ] (cache : List (κ × υ)) (kvs : List (κ × υ)) : List (κ × υ) :=
  kvs.foldl (fun c kv => store_url c kv.1 kv.2) cache

/-! ## RateLimiter

Modelled from the spec: no rate limiter is present in src/main.py (the
spec sections 4.5 and 8 describe one as part of the core), so rlAdmit is
modelled from the spec words: drop all timestamps older than 60 seconds
from now, then reject without recording if the remaining count is at or
above the per-identity limit, else record now and accept. -/

/-- Modelled from the spec: the sliding-window admission check for one
identity; returns the decision and the updated timestamp window. -/
def rlAdmit (limit : Nat) (window : List Nat) (now : Nat) : Bool × List Nat :=
  let w := window.filter (fun t => decide (now ≤ t + 60))
  if limit ≤ w.length then (false, w) else (true, w ++ [now])

/-- Modelled from the spec: a sequence of rlAdmit calls at the given times,
returning the decisions in order and the final window. -/
def admitRun (limit : Nat) : List Nat → List Nat → List Bool × List Nat
  | window, [] => ([], window)
  | window, t :: ts =>
    let r := rlAdmit limit window t
    let rest := admitRun limit r.2 ts
    (r.1 :: rest.1, rest.2)

/-! ## Size messages shared by several call sites -/

/-- Models the message of src/main.py lines 342, 505, 616 and 830. -/
def fileTooLargeMsg (size maxSize : Nat) : String :=
  "❌ File too large (" ++ toString (size / (1024 * 1024)) ++
    "MB). Telegram limit is " ++ toString (maxSize / (1024 * 1024)) ++ "MB."

/-- Models the message of src/main.py line 255. -/
def videoTooLargeMsg (size maxSize : Nat) : String :=
  "❌ Video too large (" ++ toString (size / (1024 * 1024)) ++
    "MB). Limit: " ++ toString (maxSize / (1024 * 1024)) ++ "MB"

/-- Models the Python truthiness-guarded size test
(if filesize and filesize greater than MAX_FILE_SIZE), where 0 stands
for an absent or zero declared size, src/main.py lines 252, 504. -/
def sizeGate (maxSize filesize : Nat) : Bool :=
  filesize != 0 && decide (maxSize < filesize)

/-- The default configured ceiling: 50 MB in bytes, src/main.py line 40. -/
def defaultMaxFileSize : Nat := 50 * 1024 * 1024

/-! ## download_with_ytdlp: the strategy catalog and the strategy loop

src/main.py lines 414-542.  A strategy is one yt-dlp option bundle; the
catalog built per URL (lines 436-474) and the loop over it (lines
476-538) are modelled separately, the loop being generic in the list it
receives.  The external yt-dlp behaviour for each strategy is an oracle
value of type AttemptOutcome.  The run log records, besides the returned
pair, which strategies were entered, which reached the download call,
and which one (if any) produced the success. -/

/-- One yt-dlp configuration bundle as varied across the catalog
branches: the format selector, the user agent header, and whether the
audio post-processor chain is attached. -/
structure Strategy where
  format : String
  userAgent : String
  postprocessors : Bool
  deriving Repr, DecidableEq

/-- The one user agent used by every strategy in src/main.py. -/
def chromeUA : String :=
  "Mozilla/5.0 (Windows NT 10.0; Win64; x64) AppleWebKit/537.36 (KHTML, like Gecko) Chrome/120.0.0.0 Safari/537.36"

/-- Models the strategy catalog construction, src/main.py lines 436-474:
one strategy for Twitter/X URLs, one for SoundCloud URLs, one default;
the substring tests run on the raw URL. -/
def buildStrategies (url format_type : String) : List Strategy :=
  if strContains url "twitter.com" || strContains url "x.com" then
    [{ format := "best[height<=720]/best", userAgent := chromeUA, postprocessors := false }]
  else if strContains url "soundcloud.com" then
    [{ format := "bestaudio/best", userAgent := chromeUA, postprocessors := format_type == "audio" }]
  else
    [{ format := format_type, userAgent := chromeUA, postprocessors := false }]

/-- Oracle outcome of the ydl.download call for one strategy: an
exception with its message, or the directory listing of the temp dir
afterwards (src/main.py lines 508-528). -/
inductive FetchResult where
  | fetchErr (msg : String)
  | fetched (names : List String)
  deriving Repr, DecidableEq

/-- Oracle outcome of one strategy attempt: the info extraction raised
(lines 489-497), or it returned metadata with the given declared or
approximate size (0 for absent) followed by the download phase, or some
other exception hit the per-strategy except arm (lines 530-535). -/
inductive AttemptOutcome where
  | probeErr (msg : String)
  | probed (filesize : Nat) (fetch : FetchResult)
  | exn (msg : String)
  deriving Repr, DecidableEq

/-- Models the message of src/main.py line 497. -/
def accessErrMsg (e : String) : String :=
  "❌ Error accessing content: " ++ truncate100 e ++ "..."

/-- Models the message of src/main.py line 528. -/
def dlFailedMsg (e : String) : String :=
  "❌ Download failed: " ++ truncate100 e ++ "..."

/-- Models the message of src/main.py line 520. -/
def noFileMsg : String := "❌ Download failed - no file created"

/-- Models the message of src/main.py line 538. -/
def allFailedMsg (platform : String) (lastErr : Option String) : String :=
  "❌ All " ++ platform ++ " strategies failed. Last error: " ++
    (match lastErr with
     | some e => truncate100 e
     | none => "Unknown") ++ "..."

/-- Observable record of one run of the strategy loop: the returned
error-or-filepath, the strategies whose attempt was entered, in order,
the strategies whose download call was invoked, and the strategy that
produced the returned file, if any. -/
structure RunLog where
  result : Except String String
  attempted : List Strategy
  fetchedBy : List Strategy
  succeeded : Option Strategy
  deriving Repr

/-- Models the strategy loop of download_with_ytdlp, src/main.py lines
476-538, generic in the strategy list it is given.  lastErr threads the
last_error variable: it is set by a download failure and by the
per-strategy except arm, not by an info-extraction failure.  On each
failure the loop continues when further strategies remain (i less than
len minus 1) and otherwise returns; an oversize declared size returns
immediately in every position; a successful download returns the join
of the temp dir and the first directory entry. -/
def runLoop (maxSize : Nat) (platform tempDir : String) :
    List (Strategy × AttemptOutcome) → Option String → RunLog
  | [], lastErr =>
    { result := Except.error (allFailedMsg platform lastErr),
      attempted := [], fetchedBy := [], succeeded := none }
  | (s, o) :: rest, lastErr =>
    match o with
    | AttemptOutcome.probeErr m =>
      if rest.isEmpty then
        { result := Except.error (accessErrMsg m),
          attempted := [s], fetchedBy := [], succeeded := none }
      else
        let r := runLoop maxSize platform tempDir rest lastErr
        { result := r.result, attempted := s :: r.attempted,
          fetchedBy := r.fetchedBy, succeeded := r.succeeded }
    | AttemptOutcome.exn m =>
      if rest.isEmpty then
        { result := Except.error (allFailedMsg platform (some m)),
          attempted := [s], fetchedBy := [], succeeded := none }
      else
        let r := runLoop maxSize platform tempDir rest (some m)
        { result := r.result, attempted := s :: r.attempted,
          fetchedBy := r.fetchedBy, succeeded := r.succeeded }
    | AttemptOutcome.probed filesize fetch =>
      if sizeGate maxSize filesize then
        { result := Except.error (fileTooLargeMsg filesize maxSize),
          attempted := [s], fetchedBy := [], succeeded := none }
      else
        match fetch with
        | FetchResult.fetchErr m =>
          if rest.isEmpty then
            { result := Except.error (dlFailedMsg m),
              attempted := [s], fetchedBy := [s], succeeded := none }
          else
            let r := runLoop maxSize platform tempDir rest (some m)
            { result := r.result, attempted := s :: r.attempted,
              fetchedBy := s :: r.fetchedBy, succeeded := r.succeeded }
        | FetchResult.fetched [] =>
          if rest.isEmpty then
            { result := Except.error noFileMsg,
              attempted := [s], fetchedBy := [s], succeeded := none }
          else
            let r := runLoop maxSize platform tempDir rest lastErr
            { result := r.result, attempted := s :: r.attempted,
              fetchedBy := s :: r.fetchedBy, succeeded := r.succeeded }
        | FetchResult.fetched (f :: _) =>
          { result := Except.ok (tempDir ++ "/" ++ f),
            attempted := [s], fetchedBy := [s], succeeded := some s }

/-- Models download_with_ytdlp, src/main.py lines 414-542: build the
catalog for the URL and run the loop with last_error initially None;
the oracle gives the external yt-dlp outcome per strategy index. -/
def download_with_ytdlp (maxSize : Nat) (url format_type platform tempDir : String)
    (oracle : Nat → AttemptOutcome) : RunLog :=
  let ss := buildStrategies url format_type
  runLoop maxSize platform tempDir (ss.enum.map (fun p => (p.2, oracle p.1))) none

/-! ## The YouTube chain in download_media, src/main.py lines 544-569

download_media routes on substrings of the lowered full URL.  For
YouTube it calls the pytubefix downloader and falls back to yt-dlp only
when the returned error mentions a changed system, cipher or extract;
every other error is returned as is. -/

/-- Which downloader download_media routes to, lines 548-569. -/
inductive Downloader where
  | pytubefix
  | instaloader
  | ytdlp
  deriving Repr, DecidableEq

/-- Models the routing test of download_media, src/main.py lines 549,
562: substring tests over the lowered full URL string, in fixed order. -/
def download_media_dispatch (url : String) : Downloader :=
  let lower := lowerChars url.toList
  if listInfixOf "youtube.com".toList lower || listInfixOf "youtu.be".toList lower then
    Downloader.pytubefix
  else if listInfixOf "instagram.com".toList lower then
    Downloader.instaloader
  else
    Downloader.ytdlp

/-- Result of a downloader call as seen by its caller: a file path with
no error, or an error message with no file. -/
inductive PyResult where
  | ok (path : String)
  | err (msg : String)
  deriving Repr, DecidableEq

/-- Models the fallback condition of download_media, src/main.py line
554: the error mentions a changed system, cipher or extract. -/
def fallbackTriggered (e : String) : Bool :=
  strContains e "changed their system" || strContains e "cipher" || strContains e "extract"

/-- Models the YouTube branch of download_media, src/main.py lines
549-559: run pytubefix; on a fallback-classified error return the
yt-dlp fallback result (flag true records that the fallback ran),
otherwise return the pytubefix result unchanged. -/
def youtubeRoute (py : PyResult) (fb : PyResult) : PyResult × Bool :=
  match py with
  | PyResult.ok p => (PyResult.ok p, false)
  | PyResult.err e =>
    if fallbackTriggered e then (fb, true) else (PyResult.err e, false)

/-- Models the message of src/main.py line 271 (VideoUnavailable). -/
def msgVideoUnavailable : String := "❌ YouTube video is unavailable, private, or deleted"

/-- Models the message of src/main.py line 273 (AgeRestrictedError). -/
def msgAgeRestricted : String := "❌ Age-restricted content cannot be downloaded"

/-- Models the message of src/main.py line 275 (VideoPrivate). -/
def msgVideoPrivate : String := "❌ This YouTube video is private"

/-- Models the message of src/main.py line 277 (MembersOnly). -/
def msgMembersOnly : String := "❌ This is members-only content"

/-- Models the message of src/main.py line 285 (generic unavailable). -/
def msgGenericUnavailable : String := "❌ Video unavailable. May be deleted, private, or region-blocked"

/-- Models the message of src/main.py line 287 (generic private). -/
def msgGenericPrivate : String := "❌ This video is private"

/-- The pytubefix error messages whose classification is terminal in the
sense of the spec: age-restricted, explicitly private (including
members-only), content unavailable or not found; src/main.py lines
270-277 and 284-287. -/
def pytubefixTerminalMsgs : List String :=
  [msgVideoUnavailable, msgAgeRestricted, msgVideoPrivate, msgMembersOnly,
   msgGenericUnavailable, msgGenericPrivate]

/-- Models the pre-transfer size gate on the selected pytubefix video
stream, src/main.py lines 251-263: an oversize declared stream size
returns the error without invoking stream.download (the Bool records
whether the download call is reached). -/
def pytubefixVideoGate (maxSize filesize : Nat) : Except String Unit × Bool :=
  if sizeGate maxSize filesize then
    (Except.error (videoTooLargeMsg filesize maxSize), false)
  else (Except.ok (), true)

/-! ## The per-request temporary workspace and the handler cleanup

Every downloader begins with tempfile.mkdtemp under the download root
(src/main.py lines 141, 297, 416, 573) and no downloader removes that
directory on any of its own paths; the only removal in the program is
the finally block of handle_format_selection, lines 885-900.  The
workspace of one invocation is modelled as a flag for the directory and
the list of files (with sizes) inside it. -/

/-- The temporary workspace of one download invocation: whether the
mkdtemp directory still exists, and the name-size pairs of the files in
it (a file can only exist while its directory does). -/
structure InvocationState where
  tempDirExists : Bool
  files : List (String × Nat)
  deriving Repr, DecidableEq

/-- Models os.path.exists on a file path inside the workspace. -/
def existsFile (st : InvocationState) (p : String) : Bool :=
  st.tempDirExists && st.files.any (fun q => q.1 == p)

/-- Models os.path.getsize on a file path inside the workspace. -/
def fileSize (st : InvocationState) (p : String) : Nat :=
  match st.files.find? (fun q => q.1 == p) with
  | some q => q.2
  | none => 0

/-- Models os.remove: delete the named file, raising FileNotFoundError
when it does not exist. -/
def osRemove (st : InvocationState) (p : String) : Except String InvocationState :=
  if st.tempDirExists && st.files.any (fun q => q.1 == p) then
    Except.ok { tempDirExists := st.tempDirExists,
                files := st.files.filter (fun q => q.1 != p) }
  else Except.error "FileNotFoundError"

/-- Models shutil.rmtree with ignore_errors True: removes the directory
and everything in it and never raises. -/
def rmtreeIgnoreErrors (_ : InvocationState) : InvocationState :=
  { tempDirExists := false, files := [] }

/-- Models the body of the finally block of handle_format_selection,
src/main.py lines 887-897, before its own try/except: if filepath is
bound, truthy and the file exists, remove it and then, if the temp dir
(its dirname) exists, rmtree it.  filepath none models both the unbound
and the None cases, for which the guard fails and nothing is touched.
An error value is a Python exception escaping this body. -/
def cleanupInner (st : InvocationState) : Option String → Except String InvocationState
  | none => Except.ok st
  | some p =>
    if existsFile st p then
      match osRemove st p with
      | Except.error e => Except.error e
      | Except.ok st1 =>
        if st1.tempDirExists then Except.ok (rmtreeIgnoreErrors st1)
        else Except.ok st1
    else Except.ok st

/-- Models the whole finally block, lines 885-900: the inner cleanup
wrapped in try/except Exception, so no exception reaches the caller;
on an exception the state is whatever the inner body left (the only
raising step, os.remove, either completes or leaves the state as it
was). -/
def cleanupSafe (st : InvocationState) (filepath : Option String) : InvocationState :=
  match cleanupInner st filepath with
  | Except.ok st1 => st1
  | Except.error _ => st

/-- What the download_media call handed back to handle_format_selection:
a file path (error None), an error message (filepath None), or an
exception raised out of the call itself, in which case the local
variable filepath is never bound. -/
inductive MediaResult where
  | file (path : String)
  | errorMsg (msg : String)
  | raised (msg : String)
  deriving Repr, DecidableEq

/-- Models handle_format_selection after the download_media call,
src/main.py lines 785-900: the error arm edits an error message (the
appended hint text of lines 790-817 does not affect any state and is
elided), the missing-file arm reports failure, the oversize arm reports
the size error, otherwise the upload proceeds; in every case the finally
block then runs with whatever filepath is bound.  Returns the final
user-visible message and the final workspace state. -/
def handle_format_selection_tail (maxSize : Nat) (st : InvocationState) :
    MediaResult → String × InvocationState
  | MediaResult.errorMsg m => ("❌ " ++ m, cleanupSafe st none)
  | MediaResult.raised m => ("❌ An error occurred: " ++ m, cleanupSafe st none)
  | MediaResult.file p =>
    if existsFile st p then
      if maxSize < fileSize st p then
        (fileTooLargeMsg (fileSize st p) maxSize, cleanupSafe st (some p))
      else
        ("✅ downloaded successfully", cleanupSafe st (some p))
    else ("❌ Download failed - file not found", cleanupSafe st (some p))

/-! ## download_instagram_with_instaloader, video branch

src/main.py lines 295-360: mkdtemp, fetch the post video into the temp
dir, then check the actual on-disk size against the ceiling; oversize
returns the error with the file still on disk (no removal occurs in
this function).  For an audio request ffmpeg extracts the audio and the
video file is removed on success.  The network fetch and ffmpeg are
external: the video size, extracted audio size and ffmpeg success are
oracle inputs. -/

/-- Models the message of src/main.py line 356. -/
def msgFfmpegFailed : String := "❌ Audio extraction failed. ffmpeg may not be installed."

/-- Models the video branch of download_instagram_with_instaloader,
src/main.py lines 317-360, from the point where the video bytes have
been written to the temp dir. -/
def download_instagram_video (maxSize : Nat) (shortcode : String)
    (videoSize audioSize : Nat) (format_type : String) (ffmpegOk : Bool) :
    MediaResult × InvocationState :=
  let fname := "instagram_video_" ++ shortcode ++ ".mp4"
  let aname := "instagram_audio_" ++ shortcode ++ ".mp3"
  let st : InvocationState := { tempDirExists := true, files := [(fname, videoSize)] }
  if maxSize < videoSize then
    (MediaResult.errorMsg (fileTooLargeMsg videoSize maxSize), st)
  else if format_type == "audio" then
    if ffmpegOk then
      (MediaResult.file aname, { tempDirExists := true, files := [(aname, audioSize)] })
    else
      (MediaResult.errorMsg msgFfmpegFailed, st)
  else
    (MediaResult.file fname, st)

/-- One whole Instagram video invocation: the downloader followed by the
handle_format_selection tail on its result. -/
def instaInvocation (maxSize : Nat) (shortcode : String)
    (videoSize audioSize : Nat) (format_type : String) (ffmpegOk : Bool) :
    String × InvocationState :=
  let r := download_instagram_video maxSize shortcode videoSize audioSize format_type ffmpegOk
  handle_format_selection_tail maxSize r.2 r.1

/-! ## Outcome classifications used by the orchestration claims -/

/-- A strategy attempt outcome after which the loop of src/main.py lines
476-538 moves on to the next strategy when one remains: a probe failure,
a per-strategy exception, and, when the declared size passes the gate,
a download failure or an empty directory listing. -/
def retryableOutcome (maxSize : Nat) : AttemptOutcome → Prop
  | AttemptOutcome.probeErr _ => True
  | AttemptOutcome.exn _ => True
  | AttemptOutcome.probed filesize (FetchResult.fetchErr _) => sizeGate maxSize filesize = false
  | AttemptOutcome.probed filesize (FetchResult.fetched names) =>
    names = [] ∧ sizeGate maxSize filesize = false

/-- An attempt outcome that fails before any download call: a probe
failure or a per-strategy exception. -/
def probeFailOutcome : AttemptOutcome → Prop
  | AttemptOutcome.probeErr _ => True
  | AttemptOutcome.exn _ => True
  | AttemptOutcome.probed _ _ => False

/-- Decidable form of option Except.isOk: no exception was raised. -/
def exceptOk : Except String InvocationState → Bool
  | Except.ok _ => true
  | Except.error _ => false

/-- A supported URL whose host is Twitter/X but whose query string
mentions instagram.com, used to separate host-based classification from
whole-URL substring dispatch. -/
def c10Url : String := "https://twitter.com/user/status/1?ref=instagram.com"

/-! # Theorems -/

/-! ## Shared helper lemmas about the workspace cleanup -/

/-- The inner finally body never raises: the one raising step, os.remove,
is guarded by the os.path.exists test on the same path. -/
theorem cleanupInner_ok (st : InvocationState) (fp : Option String) :
    exceptOk (cleanupInner st fp) = true := by
  obtain ⟨d, fs⟩ := st
  cases fp with
  | none => rfl
  | some p =>
    simp only [cleanupInner, existsFile, osRemove]
    by_cases h : (d && fs.any fun q => q.1 == p) = true
    · have hd : d = true := (Bool.and_eq_true _ _ ▸ h).1
      subst hd
      rw [if_pos h, if_pos h]
      rfl
    · rw [if_neg h]
      rfl

/-- When the guarded file exists, the finally block removes the file and
then the whole temp directory, leaving an empty, deleted workspace. -/
theorem cleanupSafe_of_existsFile (st : InvocationState) (p : String)
    (h : existsFile st p = true) :
    cleanupSafe st (some p) = { tempDirExists := false, files := [] } := by
  obtain ⟨d, fs⟩ := st
  have hd : d = true := (Bool.and_eq_true _ _ ▸ h).1
  subst hd
  simp only [cleanupSafe, cleanupInner, existsFile, osRemove] at h ⊢
  rw [if_pos h, if_pos h]
  rfl

/-- With filepath unbound or None the finally guard fails and the
workspace is untouched. -/
theorem cleanupSafe_none (st : InvocationState) : cleanupSafe st none = st := rfl

/-- C1.  The claim states that the per-request temporary directory is
deleted on every exit path of the invocation.  Counterexample: an
Instagram video download whose actual size exceeds the ceiling returns a
classified failure string, and at the end of the whole invocation
(downloader plus the handle_format_selection finally block) the
temporary directory still exists, so the claim is false. -/
theorem c1_workspace_counterexample :
    (instaInvocation defaultMaxFileSize "abc" (defaultMaxFileSize + 1) 0 "video" true).2.tempDirExists
      = true := by decide

/-- C1 amended.  The temporary workspace is deleted exactly on the paths
where the downloader handed back a path to a file that exists: there the
finally block removes the file and the directory.  When a classified
failure string is returned, and when the download call raises, the
finally guard (filepath bound, truthy and existing) fails and the
workspace is left untouched, so the directory survives the invocation. -/
theorem c1_workspace_amended :
    (∀ (maxSize : Nat) (p : String) (st : InvocationState), existsFile st p = true →
      (handle_format_selection_tail maxSize st (MediaResult.file p)).2.tempDirExists = false)
    ∧ (∀ (maxSize : Nat) (m : String) (st : InvocationState),
      (handle_format_selection_tail maxSize st (MediaResult.errorMsg m)).2 = st)
    ∧ (∀ (maxSize : Nat) (m : String) (st : InvocationState),
      (handle_format_selection_tail maxSize st (MediaResult.raised m)).2 = st) := by
  refine ⟨?_, ?_, ?_⟩
  · intro maxSize p st h
    simp only [handle_format_selection_tail]
    rw [if_pos h]
    split
    · rw [cleanupSafe_of_existsFile st p h]
    · rw [cleanupSafe_of_existsFile st p h]
  · intro maxSize m st
    rfl
  · intro maxSize m st
    rfl

/-- C1 amended, witness: on a success with an existing file the
directory is deleted, and on a classified failure the workspace is
untouched. -/
theorem c1_workspace_amended_witness :
    (handle_format_selection_tail defaultMaxFileSize
        { tempDirExists := true, files := [("f", 10)] } (MediaResult.file "f")).2.tempDirExists = false
    ∧ (handle_format_selection_tail defaultMaxFileSize
        { tempDirExists := true, files := [("f", 10)] } (MediaResult.errorMsg "e")).2
      = { tempDirExists := true, files := [("f", 10)] } :=
  ⟨c1_workspace_amended.1 defaultMaxFileSize "f" _ (by decide),
   c1_workspace_amended.2.1 defaultMaxFileSize "e" _⟩

/-- C4.  The claim states that whenever the actual on-disk size exceeds
the ceiling the downloaded file is removed before the failure is
returned.  Counterexample: the Instagram downloader returns the
too-large failure with the file still on disk, and the handler finally
block does not remove it either (the error path binds no filepath), so
at the end of the invocation the oversize file still exists. -/
theorem c4_size_counterexample :
    (download_instagram_video defaultMaxFileSize "abc" (defaultMaxFileSize + 1) 0 "video" true).1
      = MediaResult.errorMsg (fileTooLargeMsg (defaultMaxFileSize + 1) defaultMaxFileSize)
    ∧ existsFile
        (instaInvocation defaultMaxFileSize "abc" (defaultMaxFileSize + 1) 0 "video" true).2
        "instagram_video_abc.mp4" = true := by
  constructor
  · rfl
  · decide

/-- C4 amended.  An oversize actual size yields the too-large failure at
both post-transfer check sites, but the file is removed only at the
handle_format_selection site (lines 822-831), where the finally block
deletes the file and the directory; at the Instagram downloader site
(lines 338-342) the failure is returned with the file left on disk, and
it survives the whole invocation. -/
theorem c4_size_amended :
    (∀ (maxSize : Nat) (p : String) (st : InvocationState),
      existsFile st p = true → maxSize < fileSize st p →
      (handle_format_selection_tail maxSize st (MediaResult.file p)).1
          = fileTooLargeMsg (fileSize st p) maxSize
        ∧ (handle_format_selection_tail maxSize st (MediaResult.file p)).2
          = { tempDirExists := false, files := [] })
    ∧ (∀ (maxSize : Nat) (shortcode : String) (videoSize audioSize : Nat)
        (fmt : String) (ff : Bool), maxSize < videoSize →
      (download_instagram_video maxSize shortcode videoSize audioSize fmt ff).1
          = MediaResult.errorMsg (fileTooLargeMsg videoSize maxSize)
        ∧ existsFile (instaInvocation maxSize shortcode videoSize audioSize fmt ff).2
            ("instagram_video_" ++ shortcode ++ ".mp4") = true) := by
  constructor
  · intro maxSize p st h hsz
    simp only [handle_format_selection_tail]
    rw [if_pos h, if_pos hsz]
    exact ⟨rfl, cleanupSafe_of_existsFile st p h⟩
  · intro maxSize shortcode videoSize audioSize fmt ff hsz
    simp only [instaInvocation, download_instagram_video]
    rw [if_pos hsz]
    refine ⟨rfl, ?_⟩
    simp [handle_format_selection_tail, cleanupSafe_none, existsFile]

/-- C4 amended, witness: both conjuncts at an oversize concrete input. -/
theorem c4_size_amended_witness :
    (handle_format_selection_tail defaultMaxFileSize
        { tempDirExists := true, files := [("big.mp4", defaultMaxFileSize + 1)] }
        (MediaResult.file "big.mp4")).2
      = { tempDirExists := false, files := [] }
    ∧ existsFile (instaInvocation defaultMaxFileSize "xy" (defaultMaxFileSize + 1) 0 "video" true).2
        ("instagram_video_" ++ "xy" ++ ".mp4") = true :=
  ⟨(c4_size_amended.1 defaultMaxFileSize "big.mp4" _ (by decide) (by decide)).2,
   (c4_size_amended.2 defaultMaxFileSize "xy" (defaultMaxFileSize + 1) 0 "video" true
      (by decide)).2⟩

/-- C9.  The workspace release step (the finally block of
handle_format_selection) raises no exception to its caller: the inner
body is already exception-free because os.remove is guarded by
os.path.exists and rmtree runs with ignore_errors, and this holds for a
repeated invocation on the already-released workspace and for a
workspace whose contents were removed by other means. -/
theorem c9_release_no_raise (st : InvocationState) (fp : Option String) (p : String) :
    exceptOk (cleanupInner st fp) = true
    ∧ exceptOk (cleanupInner (cleanupSafe st fp) fp) = true
    ∧ exceptOk (cleanupInner { tempDirExists := true, files := [] } (some p)) = true :=
  ⟨cleanupInner_ok st fp, cleanupInner_ok (cleanupSafe st fp) fp,
   cleanupInner_ok { tempDirExists := true, files := [] } (some p)⟩

/-- C10.  download_media dispatches by substring over the whole URL, not
by the parsed host: this supported URL is hosted on twitter.com (so
get_platform_name reports Twitter/X) but contains instagram.com in its
query string, so download_media routes it to the Instagram downloader. -/
theorem c10_dispatch_divergence :
    is_supported_url c10Url = true
    ∧ download_media_dispatch c10Url = Downloader.instaloader
    ∧ get_platform_name c10Url = "Twitter/X" := by
  refine ⟨by decide, by decide, by decide⟩

/-! ## Shared helper lemmas about the strategy loop -/

/-- A one-strategy loop enters exactly that strategy, whatever the
outcome. -/
theorem runLoop_single_attempted (maxSize : Nat) (platform tempDir : String)
    (s : Strategy) (o : AttemptOutcome) (lastErr : Option String) :
    (runLoop maxSize platform tempDir [(s, o)] lastErr).attempted = [s] := by
  cases o with
  | probeErr m => simp [runLoop]
  | exn m => simp [runLoop]
  | probed fsz fetch =>
    by_cases hg : sizeGate maxSize fsz = true
    · simp [runLoop, hg]
    · cases fetch with
      | fetchErr m => simp [runLoop, hg]
      | fetched names =>
        cases names with
        | nil => simp [runLoop, hg]
        | cons f fs => simp [runLoop, hg]

/-- Every branch of the catalog construction of src/main.py lines
436-474 appends exactly one strategy. -/
theorem buildStrategies_length (url fmt : String) : (buildStrategies url fmt).length = 1 := by
  unfold buildStrategies
  split
  · rfl
  · split <;> rfl

/-- A prefix of retryable attempt outcomes is passed over: the loop
result, the remaining attempts and the succeeding strategy are those of
the loop on the remaining strategies (with some threaded last error),
and each passed-over strategy is recorded as attempted. -/
theorem runLoop_retryable_prefix (maxSize : Nat) (platform tempDir : String) :
    ∀ (pre rest : List (Strategy × AttemptOutcome)) (lastErr : Option String),
      rest ≠ [] → (∀ q ∈ pre, retryableOutcome maxSize q.2) →
      ∃ le,
        (runLoop maxSize platform tempDir (pre ++ rest) lastErr).result
            = (runLoop maxSize platform tempDir rest le).result
        ∧ (runLoop maxSize platform tempDir (pre ++ rest) lastErr).attempted
            = pre.map Prod.fst ++ (runLoop maxSize platform tempDir rest le).attempted
        ∧ (runLoop maxSize platform tempDir (pre ++ rest) lastErr).succeeded
            = (runLoop maxSize platform tempDir rest le).succeeded := by
  intro pre
  induction pre with
  | nil => intro rest lastErr _ _; exact ⟨lastErr, rfl, rfl, rfl⟩
  | cons q pre ih =>
    intro rest lastErr hne hret
    obtain ⟨s, o⟩ := q
    have hq : retryableOutcome maxSize o := hret (s, o) (List.mem_cons_self _ _)
    have hrest : ∀ r ∈ pre, retryableOutcome maxSize r.2 :=
      fun r hr => hret r (List.mem_cons_of_mem _ hr)
    have hnonempty : ((pre ++ rest).isEmpty) = false := by
      cases rest with
      | nil => exact absurd rfl hne
      | cons r rs => cases pre <;> rfl
    cases o with
    | probeErr m =>
      obtain ⟨le, h1, h2, h3⟩ := ih rest lastErr hne hrest
      exact ⟨le, by simp [runLoop, hnonempty, h1], by simp [runLoop, hnonempty, h2],
        by simp [runLoop, hnonempty, h3]⟩
    | exn m =>
      obtain ⟨le, h1, h2, h3⟩ := ih rest (some m) hne hrest
      exact ⟨le, by simp [runLoop, hnonempty, h1], by simp [runLoop, hnonempty, h2],
        by simp [runLoop, hnonempty, h3]⟩
    | probed fsz fetch =>
      cases fetch with
      | fetchErr m =>
        have hg : sizeGate maxSize fsz = false := hq
        obtain ⟨le, h1, h2, h3⟩ := ih rest (some m) hne hrest
        exact ⟨le, by simp [runLoop, hnonempty, hg, h1], by simp [runLoop, hnonempty, hg, h2],
          by simp [runLoop, hnonempty, hg, h3]⟩
      | fetched names =>
        obtain ⟨hnames, hg⟩ := hq
        subst hnames
        obtain ⟨le, h1, h2, h3⟩ := ih rest lastErr hne hrest
        exact ⟨le, by simp [runLoop, hnonempty, hg, h1], by simp [runLoop, hnonempty, hg, h2],
          by simp [runLoop, hnonempty, hg, h3]⟩

/-- A prefix of attempts that fail before their download call is passed
over and contributes nothing to the download invocations. -/
theorem runLoop_probefail_prefix (maxSize : Nat) (platform tempDir : String) :
    ∀ (pre rest : List (Strategy × AttemptOutcome)) (lastErr : Option String),
      rest ≠ [] → (∀ q ∈ pre, probeFailOutcome q.2) →
      ∃ le,
        (runLoop maxSize platform tempDir (pre ++ rest) lastErr).result
            = (runLoop maxSize platform tempDir rest le).result
        ∧ (runLoop maxSize platform tempDir (pre ++ rest) lastErr).attempted
            = pre.map Prod.fst ++ (runLoop maxSize platform tempDir rest le).attempted
        ∧ (runLoop maxSize platform tempDir (pre ++ rest) lastErr).fetchedBy
            = (runLoop maxSize platform tempDir rest le).fetchedBy := by
  intro pre
  induction pre with
  | nil => intro rest lastErr _ _; exact ⟨lastErr, rfl, rfl, rfl⟩
  | cons q pre ih =>
    intro rest lastErr hne hret
    obtain ⟨s, o⟩ := q
    have hq : probeFailOutcome o := hret (s, o) (List.mem_cons_self _ _)
    have hrest : ∀ r ∈ pre, probeFailOutcome r.2 :=
      fun r hr => hret r (List.mem_cons_of_mem _ hr)
    have hnonempty : ((pre ++ rest).isEmpty) = false := by
      cases rest with
      | nil => exact absurd rfl hne
      | cons r rs => cases pre <;> rfl
    cases o with
    | probeErr m =>
      obtain ⟨le, h1, h2, h3⟩ := ih rest lastErr hne hrest
      exact ⟨le, by simp [runLoop, hnonempty, h1], by simp [runLoop, hnonempty, h2],
        by simp [runLoop, hnonempty, h3]⟩
    | exn m =>
      obtain ⟨le, h1, h2, h3⟩ := ih rest (some m) hne hrest
      exact ⟨le, by simp [runLoop, hnonempty, h1], by simp [runLoop, hnonempty, h2],
        by simp [runLoop, hnonempty, h3]⟩
    | probed fsz fetch => exact absurd hq (by simp [probeFailOutcome])

/-- A size-passing, file-producing strategy at the head of the list ends
the loop at once with its file. -/
theorem runLoop_success_head (maxSize : Nat) (platform tempDir : String)
    (s : Strategy) (fsz : Nat) (f : String) (more : List String)
    (post : List (Strategy × AttemptOutcome)) (le : Option String)
    (hg : sizeGate maxSize fsz = false) :
    runLoop maxSize platform tempDir
        ((s, AttemptOutcome.probed fsz (FetchResult.fetched (f :: more))) :: post) le
      = { result := Except.ok (tempDir ++ "/" ++ f), attempted := [s],
          fetchedBy := [s], succeeded := some s } := by
  simp [runLoop, hg]

/-- A strategy whose probe declares an oversize payload ends the loop at
once with the too-large failure and no download call. -/
theorem runLoop_oversize_head (maxSize : Nat) (platform tempDir : String)
    (s : Strategy) (fsz : Nat) (fetch : FetchResult)
    (post : List (Strategy × AttemptOutcome)) (le : Option String)
    (hg : sizeGate maxSize fsz = true) :
    runLoop maxSize platform tempDir ((s, AttemptOutcome.probed fsz fetch) :: post) le
      = { result := Except.error (fileTooLargeMsg fsz maxSize), attempted := [s],
          fetchedBy := [], succeeded := none } := by
  simp [runLoop, hg]

/-- A size strictly above the ceiling is nonzero, hence truthy, so the
guarded Python size test fires. -/
theorem sizeGate_of_lt {maxSize filesize : Nat} (h : maxSize < filesize) :
    sizeGate maxSize filesize = true := by
  have h0 : filesize ≠ 0 := Nat.pos_iff_ne_zero.mp (Nat.lt_of_le_of_lt (Nat.zero_le _) h)
  simp [sizeGate, h, h0]

/-- C2.  A terminal failure stops the run at once.  First conjunct: in
the YouTube chain of download_media, a pytubefix error classified
terminal (unavailable or not found, age-restricted, private,
members-only) never triggers the yt-dlp fallback strategy and is
returned immediately, whatever the fallback would have produced.
Second conjunct: in download_with_ytdlp the catalog always holds a
single strategy, so no run ever enters a second strategy after a
failure at any position. -/
theorem c2_terminal_short_circuit :
    (∀ e, e ∈ pytubefixTerminalMsgs →
      ∀ fb, youtubeRoute (PyResult.err e) fb = (PyResult.err e, false))
    ∧ (∀ (maxSize : Nat) (url fmt platform tempDir : String) (oracle : Nat → AttemptOutcome),
      (download_with_ytdlp maxSize url fmt platform tempDir oracle).attempted.length ≤ 1) := by
  constructor
  · intro e he fb
    have hf : fallbackTriggered e = false := by
      simp only [pytubefixTerminalMsgs, List.mem_cons, List.not_mem_nil, or_false] at he
      rcases he with rfl | rfl | rfl | rfl | rfl | rfl <;> decide
    simp [youtubeRoute, hf]
  · intro maxSize url fmt platform tempDir oracle
    obtain ⟨s, hs⟩ := List.length_eq_one.mp (buildStrategies_length url fmt)
    have hd : download_with_ytdlp maxSize url fmt platform tempDir oracle
        = runLoop maxSize platform tempDir [(s, oracle 0)] none := by
      unfold download_with_ytdlp
      rw [hs]
      rfl
    rw [hd, runLoop_single_attempted]
    simp

/-- C2, witness: the age-restricted terminal error bypasses the
fallback, and a concrete SoundCloud run attempts one strategy. -/
theorem c2_terminal_short_circuit_witness :
    youtubeRoute (PyResult.err msgAgeRestricted) (PyResult.ok "f")
        = (PyResult.err msgAgeRestricted, false)
    ∧ (download_with_ytdlp defaultMaxFileSize "https://soundcloud.com/a" "audio" "SoundCloud"
        "/tmp/dl" (fun _ => AttemptOutcome.probeErr "boom")).attempted.length ≤ 1 :=
  ⟨c2_terminal_short_circuit.1 msgAgeRestricted (by decide) (PyResult.ok "f"),
   c2_terminal_short_circuit.2 defaultMaxFileSize "https://soundcloud.com/a" "audio" "SoundCloud"
     "/tmp/dl" (fun _ => AttemptOutcome.probeErr "boom")⟩

/-- C5.  When the probe reports a declared or estimated size strictly
above the ceiling, the orchestrator returns the size failure at once
and the transfer step never runs.  First conjunct: in the strategy loop,
after any prefix of attempts that failed before their download call, an
oversize probe at the next position returns the too-large failure, the
download call is invoked for no strategy of the run, and nothing after
that position is attempted.  Second conjunct: the pytubefix video path
returns its size error without reaching its download call. -/
theorem c5_pre_transfer_gate :
    (∀ (maxSize : Nat) (platform tempDir : String)
        (pre : List (Strategy × AttemptOutcome)) (s : Strategy) (filesize : Nat)
        (fetch : FetchResult) (post : List (Strategy × AttemptOutcome)) (lastErr : Option String),
      (∀ q ∈ pre, probeFailOutcome q.2) → maxSize < filesize →
      (runLoop maxSize platform tempDir
          (pre ++ (s, AttemptOutcome.probed filesize fetch) :: post) lastErr).result
          = Except.error (fileTooLargeMsg filesize maxSize)
        ∧ (runLoop maxSize platform tempDir
            (pre ++ (s, AttemptOutcome.probed filesize fetch) :: post) lastErr).fetchedBy = []
        ∧ (runLoop maxSize platform tempDir
            (pre ++ (s, AttemptOutcome.probed filesize fetch) :: post) lastErr).attempted
          = pre.map Prod.fst ++ [s])
    ∧ (∀ maxSize filesize, maxSize < filesize →
        pytubefixVideoGate maxSize filesize
          = (Except.error (videoTooLargeMsg filesize maxSize), false)) := by
  constructor
  · intro maxSize platform tempDir pre s filesize fetch post lastErr hpre hsz
    obtain ⟨le, h1, h2, h3⟩ := runLoop_probefail_prefix maxSize platform tempDir pre
      ((s, AttemptOutcome.probed filesize fetch) :: post) lastErr (List.cons_ne_nil _ _) hpre
    rw [runLoop_oversize_head maxSize platform tempDir s filesize fetch post le
      (sizeGate_of_lt hsz)] at h1 h2 h3
    exact ⟨h1, h3, h2⟩
  · intro maxSize filesize hsz
    simp [pytubefixVideoGate, sizeGate_of_lt hsz]

/-- C5, witness: a strategy declaring one byte over the ceiling yields
the too-large failure, and the pytubefix gate blocks the download. -/
theorem c5_pre_transfer_gate_witness :
    (runLoop defaultMaxFileSize "Twitter/X" "/tmp/dl"
        ([] ++ ({ format := "best[height<=720]/best", userAgent := chromeUA, postprocessors := false },
          AttemptOutcome.probed (defaultMaxFileSize + 1) (FetchResult.fetched ["x.mp4"])) :: []) none).result
      = Except.error (fileTooLargeMsg (defaultMaxFileSize + 1) defaultMaxFileSize)
    ∧ pytubefixVideoGate defaultMaxFileSize (defaultMaxFileSize + 1)
      = (Except.error (videoTooLargeMsg (defaultMaxFileSize + 1) defaultMaxFileSize), false) :=
  ⟨(c5_pre_transfer_gate.1 defaultMaxFileSize "Twitter/X" "/tmp/dl" []
      { format := "best[height<=720]/best", userAgent := chromeUA, postprocessors := false }
      (defaultMaxFileSize + 1) (FetchResult.fetched ["x.mp4"]) [] none
      (by intro q hq; cases hq) (by decide)).1,
   c5_pre_transfer_gate.2 defaultMaxFileSize (defaultMaxFileSize + 1) (by decide)⟩

/-- C7.  If every strategy before position N produces a retryable
failure and the strategy at position N passes the size gate and
produces a file, the loop returns that file as a success produced by
strategy N, and no strategy after position N is attempted (the
attempted list stops at strategy N). -/
theorem c7_first_success (maxSize : Nat) (platform tempDir : String)
    (pre : List (Strategy × AttemptOutcome)) (sN : Strategy) (filesize : Nat)
    (f : String) (more : List String) (post : List (Strategy × AttemptOutcome))
    (lastErr : Option String)
    (hpre : ∀ q ∈ pre, retryableOutcome maxSize q.2)
    (hg : sizeGate maxSize filesize = false) :
    (runLoop maxSize platform tempDir
        (pre ++ (sN, AttemptOutcome.probed filesize (FetchResult.fetched (f :: more))) :: post)
        lastErr).result = Except.ok (tempDir ++ "/" ++ f)
    ∧ (runLoop maxSize platform tempDir
        (pre ++ (sN, AttemptOutcome.probed filesize (FetchResult.fetched (f :: more))) :: post)
        lastErr).succeeded = some sN
    ∧ (runLoop maxSize platform tempDir
        (pre ++ (sN, AttemptOutcome.probed filesize (FetchResult.fetched (f :: more))) :: post)
        lastErr).attempted = pre.map Prod.fst ++ [sN] := by
  obtain ⟨le, h1, h2, h3⟩ := runLoop_retryable_prefix maxSize platform tempDir pre
    ((sN, AttemptOutcome.probed filesize (FetchResult.fetched (f :: more))) :: post) lastErr
    (List.cons_ne_nil _ _) hpre
  rw [runLoop_success_head maxSize platform tempDir sN filesize f more post le hg] at h1 h2 h3
  exact ⟨h1, h3, h2⟩

/-- C7, witness: one retryable probe failure followed by a succeeding
strategy, with a third position never reached. -/
theorem c7_first_success_witness :
    (runLoop defaultMaxFileSize "Twitter/X" "/tmp/dl"
        ([({ format := "best[height<=720]/best", userAgent := chromeUA, postprocessors := false },
            AttemptOutcome.probeErr "bot detected")] ++
          ({ format := "best", userAgent := chromeUA, postprocessors := false },
            AttemptOutcome.probed 1000 (FetchResult.fetched ["ok.mp4"])) :: []) none).result
      = Except.ok ("/tmp/dl" ++ "/" ++ "ok.mp4") :=
  (c7_first_success defaultMaxFileSize "Twitter/X" "/tmp/dl"
    [({ format := "best[height<=720]/best", userAgent := chromeUA, postprocessors := false },
      AttemptOutcome.probeErr "bot detected")]
    { format := "best", userAgent := chromeUA, postprocessors := false }
    1000 "ok.mp4" [] [] none
    (by intro q hq; simp only [List.mem_singleton] at hq; subst hq; trivial)
    (by decide)).1

/-- C8.  Platform classification never raises and fails closed: the one
exception urlparse can raise is caught (modelled by the error arm), so
for every input string the classifiers are total; a malformed URL or an
unmatched host yields unsupported (is_supported_url false,
get_platform_name Unknown), and any other answer of get_platform_name
is a platform name from the static table. -/
theorem c8_classifier_fails_closed (url : String) :
    (∀ e, urlparseNetloc url = Except.error e →
      is_supported_url url = false ∧ get_platform_name url = "Unknown")
    ∧ (∀ netloc, urlparseNetloc url = Except.ok netloc →
      (∀ pr ∈ supported_platforms, listInfixOf pr.1.toList (normalizeDomain netloc) = false) →
      is_supported_url url = false ∧ get_platform_name url = "Unknown")
    ∧ (is_supported_url url = false ∨ ∃ pr ∈ supported_platforms, get_platform_name url = pr.2) := by
  refine ⟨?_, ?_, ?_⟩
  · intro e he
    exact ⟨by simp [is_supported_url, he], by simp [get_platform_name, he]⟩
  · intro netloc hn hall
    have hall2 : ∀ pr ∈ supported_platforms,
        ¬ (listInfixOf pr.1.toList (normalizeDomain netloc) = true) := by
      intro pr hpr
      rw [hall pr hpr]
      simp
    constructor
    · simp only [is_supported_url, hn]
      exact List.any_eq_false.mpr hall2
    · simp only [get_platform_name, hn]
      rw [List.find?_eq_none.mpr hall2]
  · cases hcase : urlparseNetloc url with
    | error e => exact Or.inl (by simp [is_supported_url, hcase])
    | ok netloc =>
      cases hfind : supported_platforms.find?
          (fun p => listInfixOf p.1.toList (normalizeDomain netloc)) with
      | none =>
        refine Or.inl ?_
        simp only [is_supported_url, hcase]
        exact List.any_eq_false.mpr (List.find?_eq_none.mp hfind)
      | some pr =>
        refine Or.inr ⟨pr, List.mem_of_find?_eq_some hfind, ?_⟩
        have hfind2 : List.find? (fun p => listInfixOf p.1.data (normalizeDomain netloc))
            supported_platforms = some pr := hfind
        simp [get_platform_name, hcase, hfind2]

/-- C8, witness: a malformed URL (invalid IPv6 netloc) and a well-formed
but unmatched host both fail closed. -/
theorem c8_classifier_fails_closed_witness :
    (is_supported_url "http://[::1" = false ∧ get_platform_name "http://[::1" = "Unknown")
    ∧ (is_supported_url "https://example.com/a" = false
        ∧ get_platform_name "https://example.com/a" = "Unknown") :=
  ⟨(c8_classifier_fails_closed "http://[::1").1 "Invalid IPv6 URL" (by rfl),
   (c8_classifier_fails_closed "https://example.com/a").2.1 "example.com".toList (by rfl)
     (by decide)⟩

/-! ## Shared helper lemmas about the HandleCache -/

/-- Assigning a fresh key to the Python dict appends it in insertion
order. -/
theorem dictInsert_fresh {κ υ : Type} [DecidableEq κ] (c : List (κ × υ)) (k : κ) (v : υ)
    (h : ∀ p ∈ c, p.1 ≠ k) : dictInsert c k v = c ++ [(k, v)] := by
  have hany : c.any (fun p => p.1 == k) = false :=
    List.any_eq_false.mpr (by intro p hp; simp [h p hp])
  unfold dictInsert
  rw [hany]
  simp

/-- While the cache stays at or below 100 entries, storing a fresh token
appends it and evicts nothing. -/
theorem store_url_fresh_small {κ υ : Type} [DecidableEq κ] (c : List (κ × υ)) (k : κ) (v : υ)
    (h : ∀ p ∈ c, p.1 ≠ k) (hlen : c.length + 1 ≤ 100) :
    store_url c k v = c ++ [(k, v)] := by
  simp only [store_url]
  rw [dictInsert_fresh c k v h]
  rw [if_neg (by simp; omega)]

/-- Storing a list of fresh, pairwise distinct tokens that keeps the
cache within 100 entries appends them all in order. -/
theorem putMany_fresh {κ υ : Type} [DecidableEq κ] :
    ∀ (kvs : List (κ × υ)) (c : List (κ × υ)),
      c.length + kvs.length ≤ 100 →
      (kvs.map Prod.fst).Nodup →
      (∀ p ∈ kvs, ∀ q ∈ c, q.1 ≠ p.1) →
      putMany c kvs = c ++ kvs := by
  intro kvs
  induction kvs with
  | nil => intro c _ _ _; simp [putMany]
  | cons kv rest ih =>
    intro c hlen hnd hfresh
    have h1 : ∀ q ∈ c, q.1 ≠ kv.1 := fun q hq => hfresh kv (List.mem_cons_self _ _) q hq
    have hstep : store_url c kv.1 kv.2 = c ++ [kv] := by
      rw [store_url_fresh_small c kv.1 kv.2 h1 (by simp at hlen ⊢; omega)]
    have hndrest : (rest.map Prod.fst).Nodup := by
      simp only [List.map_cons, List.nodup_cons] at hnd
      exact hnd.2
    have hhead : kv.1 ∉ rest.map Prod.fst := by
      simp only [List.map_cons, List.nodup_cons] at hnd
      exact hnd.1
    have hput : putMany c (kv :: rest) = putMany (store_url c kv.1 kv.2) rest := rfl
    rw [hput, hstep, ih (c ++ [kv]) (by simp at hlen ⊢; omega) hndrest ?_]
    · simp
    · intro p hp q hq
      rcases List.mem_append.mp hq with h | h
      · exact hfresh p (List.mem_cons_of_mem _ hp) q h
      · simp only [List.mem_singleton] at h
        subst h
        intro heq
        exact hhead (heq ▸ List.mem_map_of_mem Prod.fst hp)

/-- C3 amended.  Starting from an empty HandleCache, storing 101 entries
with pairwise distinct tokens leaves exactly 50 entries, namely the last
50 stored (the 101st plus the 49 most recent of the prior 100): the
eviction pass of store_url deletes every key except the last 50.  get
on any of the evicted first 51 tokens returns absent. -/
theorem c3_cache_amended {κ υ : Type} [DecidableEq κ] (kvs : List (κ × υ))
    (hlen : kvs.length = 101) (hnd : (kvs.map Prod.fst).Nodup) :
    putMany [] kvs = kvs.drop 51
    ∧ (putMany [] kvs).length = 50
    ∧ ∀ k ∈ (kvs.take 51).map Prod.fst, get_url (putMany [] kvs) k = none := by
  have hne : kvs ≠ [] := by intro h; rw [h] at hlen; simp at hlen
  obtain ⟨init, last, hkvs⟩ : ∃ init last, kvs = init ++ [last] :=
    ⟨kvs.dropLast, kvs.getLast hne, (List.dropLast_append_getLast hne).symm⟩
  subst hkvs
  have hinit : init.length = 100 := by simp at hlen; omega
  have hnd2 := hnd
  rw [List.map_append, List.nodup_append] at hnd2
  have hfreshlast : ∀ q ∈ init, q.1 ≠ last.1 := by
    intro q hq heq
    have hmem : last.1 ∈ init.map Prod.fst := heq ▸ List.mem_map_of_mem Prod.fst hq
    have := hnd2.2.2 hmem
    simp at this
  have hput_init : putMany ([] : List (κ × υ)) init = init := by
    have := putMany_fresh init [] (by simp [hinit]) hnd2.1 (by intro p _ q hq; cases hq)
    simpa using this
  have hsplit : putMany ([] : List (κ × υ)) (init ++ [last])
      = putMany (putMany [] init) [last] := by
    simp [putMany, List.foldl_append]
  have hstore : store_url init last.1 last.2 = (init ++ [last]).drop 51 := by
    simp only [store_url]
    rw [dictInsert_fresh init last.1 last.2 hfreshlast]
    have hl : (init ++ [(last.1, last.2)]).length = 101 := by simp [hinit]
    rw [if_pos (by rw [hl]; omega), hl]
  have hmain : putMany ([] : List (κ × υ)) (init ++ [last]) = (init ++ [last]).drop 51 := by
    rw [hsplit, hput_init]
    have : putMany init [last] = store_url init last.1 last.2 := by simp [putMany]
    rw [this, hstore]
  refine ⟨hmain, ?_, ?_⟩
  · rw [hmain]
    simp [hinit]
  · intro k hk
    rw [hmain]
    unfold get_url
    rw [List.find?_eq_none.mpr ?_]
    · rfl
    · intro x hx
      simp only [beq_iff_eq]
      intro heq
      have hk2 : k ∈ ((init ++ [last]).map Prod.fst).take 51 := by
        rw [← List.map_take]
        exact hk
      have hx2 : k ∈ ((init ++ [last]).map Prod.fst).drop 51 := by
        rw [← List.map_drop]
        exact heq ▸ List.mem_map_of_mem Prod.fst hx
      have hnd3 := hnd
      rw [← List.take_append_drop 51 ((init ++ [last]).map Prod.fst), List.nodup_append] at hnd3
      exact hnd3.2.2 hk2 hx2

set_option maxRecDepth 20000 in
/-- C3.  The claim states that 101 distinct insertions leave exactly 51
entries.  Counterexample: storing 101 distinct tokens into the empty
cache leaves 50 entries, not 51 (list(keys)[:-50] deletes the first 51
keys once the size reaches 101). -/
theorem c3_cache_counterexample :
    (putMany ([] : List (Nat × Nat)) ((List.range 101).map (fun i => (i, i)))).length ≠ 51 := by
  decide

set_option maxRecDepth 20000 in
/-- C3 amended, witness: 101 concrete distinct tokens leave 50 entries
and the first (evicted) token reads back as absent. -/
theorem c3_cache_amended_witness :
    (putMany ([] : List (Nat × Nat)) ((List.range 101).map (fun i => (i, i)))).length = 50
    ∧ get_url (putMany ([] : List (Nat × Nat)) ((List.range 101).map (fun i => (i, i)))) 0 = none :=
  ⟨(c3_cache_amended ((List.range 101).map (fun i => (i, i))) (by simp) (by
      simp only [List.map_map]
      simpa using List.nodup_range 101)).2.1,
   (c3_cache_amended ((List.range 101).map (fun i => (i, i))) (by simp) (by
      simp only [List.map_map]
      simpa using List.nodup_range 101)).2.2 0 (by decide)⟩

/-! ## Shared helper lemmas about the RateLimiter (modelled from the spec) -/

/-- When every recorded timestamp is recent relative to now, the
drop-old-entries pass keeps the whole window. -/
theorem filter_recent_eq_self (w : List Nat) (now lo : Nat)
    (hw : ∀ t ∈ w, lo ≤ t) (hnow : now ≤ lo + 60) :
    w.filter (fun t => decide (now ≤ t + 60)) = w :=
  List.filter_eq_self.mpr (by
    intro t ht
    simp only [decide_eq_true_eq]
    have := hw t ht
    omega)

/-- Calls all lying inside one 60-second span of the window base are all
admitted while the window has room. -/
theorem admitRun_all_accept (limit lo : Nat) :
    ∀ (ts w : List Nat),
      (∀ t ∈ w, lo ≤ t ∧ t ≤ lo + 60) →
      (∀ t ∈ ts, lo ≤ t ∧ t ≤ lo + 60) →
      w.length + ts.length ≤ limit →
      admitRun limit w ts = (List.replicate ts.length true, w ++ ts) := by
  intro ts
  induction ts with
  | nil => intro w _ _ _; simp [admitRun]
  | cons t ts ih =>
    intro w hw hts hlen
    have ht := hts t (List.mem_cons_self _ _)
    have hfilter : w.filter (fun x => decide (t ≤ x + 60)) = w :=
      filter_recent_eq_self w t lo (fun x hx => (hw x hx).1) ht.2
    have hlt : w.length < limit := by simp at hlen; omega
    have hadmit : rlAdmit limit w t = (true, w ++ [t]) := by
      simp only [rlAdmit, hfilter]
      rw [if_neg (by omega)]
    simp only [admitRun, hadmit]
    rw [ih (w ++ [t]) ?_ ?_ ?_]
    · simp [List.replicate_succ]
    · intro x hx
      rcases List.mem_append.mp hx with h | h
      · exact hw x h
      · simp only [List.mem_singleton] at h
        subst h
        exact ht
    · exact fun x hx => hts x (List.mem_cons_of_mem _ hx)
    · simp at hlen ⊢
      omega

/-- A call inside the span against a full window is rejected and records
nothing. -/
theorem rlAdmit_reject (limit lo now : Nat) (w : List Nat)
    (hw : ∀ t ∈ w, lo ≤ t) (hnow : now ≤ lo + 60) (hfull : limit ≤ w.length) :
    rlAdmit limit w now = (false, w) := by
  simp only [rlAdmit, filter_recent_eq_self w now lo hw hnow]
  rw [if_pos hfull]

/-- Sixty-one seconds after the first recorded timestamp, that timestamp
has aged out, so the call is admitted again. -/
theorem rlAdmit_after_expiry (limit lo : Nat) (rest : List Nat)
    (hlim : rest.length + 1 = limit) :
    (rlAdmit limit (lo :: rest) (lo + 61)).1 = true := by
  simp only [rlAdmit, List.filter_cons]
  have h1 : (decide (lo + 61 ≤ lo + 60)) = false := by simp
  rw [h1]
  have h2 : (rest.filter (fun t => decide (lo + 61 ≤ t + 60))).length < limit :=
    lt_of_le_of_lt (List.length_filter_le _ _) (by omega)
  simp only [Bool.false_eq_true, if_false]
  rw [if_neg (by omega)]

/-- A call sequence splits: run the first part, then the second from the
resulting window. -/
theorem admitRun_append (limit : Nat) :
    ∀ (as bs w : List Nat),
      admitRun limit w (as ++ bs)
        = ((admitRun limit w as).1 ++ (admitRun limit (admitRun limit w as).2 bs).1,
           (admitRun limit (admitRun limit w as).2 bs).2) := by
  intro as
  induction as with
  | nil => intro bs w; simp [admitRun]
  | cons a as ih =>
    intro bs w
    simp only [List.cons_append, admitRun, List.append_eq]
    rw [ih]

/-- C6.  For a per-minute limit N (spec-modelled RateLimiter): N calls
inside one rolling 60-second window are all admitted, the (N+1)-th call
inside the window is rejected with no timestamp recorded (the window
after it is exactly the N admitted timestamps), and a call made 61
seconds after the first is admitted again. -/
theorem c6_rate_limiter (limit lo tExtra : Nat) (rest : List Nat)
    (hlim : rest.length + 1 = limit)
    (hrest : ∀ t ∈ rest, lo ≤ t ∧ t ≤ lo + 60)
    (hex1 : lo ≤ tExtra) (hex2 : tExtra ≤ lo + 60) :
    (admitRun limit [] ((lo :: rest) ++ [tExtra])).1 = List.replicate limit true ++ [false]
    ∧ (admitRun limit [] ((lo :: rest) ++ [tExtra])).2 = lo :: rest
    ∧ (rlAdmit limit (lo :: rest) (lo + 61)).1 = true := by
  have hall : ∀ t ∈ lo :: rest, lo ≤ t ∧ t ≤ lo + 60 := by
    intro t ht
    rcases List.mem_cons.mp ht with h | h
    · subst h; omega
    · exact hrest t h
  have hfirst : admitRun limit [] (lo :: rest)
      = (List.replicate (rest.length + 1) true, lo :: rest) := by
    have := admitRun_all_accept limit lo (lo :: rest) []
      (by intro t ht; cases ht) hall (by simp; omega)
    simpa using this
  have hadm : rlAdmit limit (lo :: rest) tExtra = (false, lo :: rest) :=
    rlAdmit_reject limit lo tExtra (lo :: rest) (fun t ht => (hall t ht).1) hex2
      (by simp [← hlim])
  have hsecond : admitRun limit (lo :: rest) [tExtra] = ([false], lo :: rest) := by
    simp [admitRun, hadm]
  constructor
  · rw [admitRun_append limit (lo :: rest) [tExtra] [], hfirst]
    simp [hsecond, hlim]
  constructor
  · rw [admitRun_append limit (lo :: rest) [tExtra] [], hfirst]
    simp [hsecond]
  · exact rlAdmit_after_expiry limit lo rest hlim

/-- C6, witness: limit 2, calls at 0, 30 admitted, at 55 rejected, and
at 61 admitted again. -/
theorem c6_rate_limiter_witness :
    (admitRun 2 [] (([0, 30] : List Nat) ++ [55])).1 = List.replicate 2 true ++ [false]
    ∧ (admitRun 2 [] (([0, 30] : List Nat) ++ [55])).2 = [0, 30]
    ∧ (rlAdmit 2 [0, 30] (0 + 61)).1 = true :=
  c6_rate_limiter 2 0 55 [30] (by decide) (by decide) (by decide) (by decide)
